import Mathlib

/-!
Shallow embedding of the attendance/break accounting core of
`src/OfficeTimeTracker.jsx` (a single-file React time tracker).

Modelling conventions:
* An instant is an `Int`: milliseconds of local wall-clock time since an
  arbitrary epoch (JS `Date` values are integral ms; all arithmetic in the
  source is on `getTime()` differences and `setHours`, which operate on the
  local wall clock, modelled here as a linear ms axis).
* `Math.floor (x / y)` for integral `x` and positive integral `y` is
  `Int.fdiv x y`.
* A calendar day (`toDateString()` identity) is the floor-quotient of the
  instant by `msPerDay`.
* React state setters become functional record updates; the `window.confirm`
  collaborator becomes a boolean parameter; `alert`-signalled rejections
  (and rejections enforced by a disabled button) become an `OpError` result,
  named per the design taxonomy (`invalidTransition` / `breakExhausted`).
* localStorage becomes explicit slots in `SysState` (`STORAGE_KEY`,
  `HISTORY_KEY`, `DATE_KEY`).
-/

/-- Milliseconds per minute (`1000 * 60` in `minutesBetween`). -/
def msPerMinute : Int := 60000

/-- Milliseconds per local calendar day. -/
def msPerDay : Int := 86400000

/-- `const minutesBetween = (a, b) => Math.max(0, Math.floor((b - a) / (1000 * 60)))`. -/
def minutesBetween (a b : Int) : Int := max 0 ((b - a).fdiv msPerMinute)

/-- Midnight at the start of the local calendar day containing `t`. -/
def startOfDay (t : Int) : Int := msPerDay * (t.fdiv msPerDay)

/-- Calendar-day identifier of an instant (models `toDateString()` identity). -/
def dayOf (t : Int) : Int := t.fdiv msPerDay

/-- `d.setHours(h, m, 0, 0)` applied to a copy of `t`: same calendar day,
hour `h`, minute `m`, seconds and milliseconds zero (with JS rollover for
out-of-range `h`/`m`). -/
def setHoursMinutes (t h m : Int) : Int := startOfDay t + (h * 60 + m) * msPerMinute

/-- `const OFFICE_START = { hours: 9, minutes: 30 }` as minutes-of-day. -/
def OFFICE_START_MINUTES : Int := 9 * 60 + 30

/-- `const BASE_BREAK_MINUTES = 60`. -/
def BASE_BREAK_MINUTES : Int := 60

/-- `const REQUIRED_WORK_HOURS = 7`. -/
def REQUIRED_WORK_HOURS : Int := 7

/-- A break session `{ start, end, minutes }`. Endpoints are optional because
`saveEdit` can write the `null` result of a failed parse into them
(`stop` models the JS field `end`, a Lean keyword). -/
structure BreakSession where
  start : Option Int
  stop : Option Int
  minutes : Int
deriving Repr, DecidableEq

/-- The object built by `computeSummaryObject`. -/
structure Summary where
  totalOfficeMinutes : Int
  breakMinutes : Int
  totalWork : Int
  requiredMinutes : Int
deriving Repr, DecidableEq

/-- `(brks || []).reduce((s, b) => s + (b.minutes || 0), 0)`. -/
def sumBreakMinutes (brks : List BreakSession) : Int :=
  brks.foldl (fun s b => s + b.minutes) 0

/-- `computeSummaryObject(pIn, pOut, brks)`: `null` when either endpoint is
missing, else office/break/work minutes and the required quota. -/
def computeSummaryObject (pIn pOut : Option Int) (brks : List BreakSession) :
    Option Summary :=
  match pIn, pOut with
  | some a, some b =>
      let totalOfficeMinutes := minutesBetween a b
      let breakMinutes := sumBreakMinutes brks
      some { totalOfficeMinutes := totalOfficeMinutes
             breakMinutes := breakMinutes
             totalWork := max 0 (totalOfficeMinutes - breakMinutes)
             requiredMinutes := REQUIRED_WORK_HOURS * 60 }
  | _, _ => none

/-- The component's core day state: the five persisted fields plus the
derived `summary` state variable. -/
structure DayRecord where
  punchIn : Option Int
  punchOut : Option Int
  breaks : List BreakSession
  onBreak : Bool
  breakStart : Option Int
  summary : Option Summary
deriving Repr, DecidableEq

/-- The four day phases, read off `getStatusBadge` (checked in this order:
punchOut ⇒ complete, onBreak ⇒ on break, punchIn ⇒ working, else not
started). -/
inductive Phase
  | notStartedP
  | workingP
  | onBreakP
  | completedP
deriving Repr, DecidableEq

/-- `getStatusBadge`'s phase of a record. -/
def stateOf (r : DayRecord) : Phase :=
  if r.punchOut.isSome then .completedP
  else if r.onBreak then .onBreakP
  else if r.punchIn.isSome then .workingP
  else .notStartedP

/-- Rejection taxonomy: `invalidTransition` for the `alert`-and-return guards
and the disabled-button cases; `breakExhausted` for the `No break remaining`
guard of `handleBreakIn`. -/
inductive OpError
  | invalidTransition
  | breakExhausted
deriving Repr, DecidableEq

/-- `handlePunchIn`: unconditionally starts a fresh day. -/
def handlePunchIn (now : Int) : DayRecord :=
  { punchIn := some now, punchOut := none, breaks := [], onBreak := false,
    breakStart := none, summary := none }

/-- The Punch In button's `disabled={!!punchIn && !punchOut}` condition. -/
def punchInDisabled (r : DayRecord) : Bool :=
  r.punchIn.isSome && r.punchOut.isNone

/-- The PunchIn operation as the user can invoke it: the disabled button is
the reject path (no handler runs, state untouched), else `handlePunchIn`. -/
def punchInOp (r : DayRecord) (now : Int) : DayRecord × Option OpError :=
  if punchInDisabled r then (r, some .invalidTransition)
  else (handlePunchIn now, none)

/-- `handlePunchOut`: guards `!punchIn` and `onBreak`, else sets `punchOut`
and recomputes the summary from the current breaks. -/
def handlePunchOut (r : DayRecord) (now : Int) : DayRecord × Option OpError :=
  if r.punchIn.isNone then (r, some .invalidTransition)
  else if r.onBreak then (r, some .invalidTransition)
  else ({ r with punchOut := some now
                 summary := computeSummaryObject r.punchIn (some now) r.breaks },
        none)

/-- The PunchOut operation including the button's
`disabled={!punchIn || !!punchOut}` condition. -/
def punchOutOp (r : DayRecord) (now : Int) : DayRecord × Option OpError :=
  if r.punchIn.isNone || r.punchOut.isSome then (r, some .invalidTransition)
  else handlePunchOut r now

/-- `earlyArrivalMinutes`: minutes from `punchIn` up to 09:30 of punchIn's own
calendar day, 0 without a punch-in. -/
def earlyArrivalMinutes (punchIn : Option Int) : Int :=
  match punchIn with
  | some t => max 0 (minutesBetween t (setHoursMinutes t 9 30))
  | none => 0

/-- `totalAllowedBreak = BASE_BREAK_MINUTES + earlyArrivalMinutes`. -/
def totalAllowedBreak (punchIn : Option Int) : Int :=
  BASE_BREAK_MINUTES + earlyArrivalMinutes punchIn

/-- `getTotalBreakUsed()`: committed break minutes plus the running break, if
one is open. -/
def getTotalBreakUsed (r : DayRecord) (now : Int) : Int :=
  let committed := sumBreakMinutes r.breaks
  match r.onBreak, r.breakStart with
  | true, some bs => committed + minutesBetween bs now
  | _, _ => committed

/-- `handleBreakIn`: guards `!punchIn`, `punchOut`, `onBreak` (the same
predicate as the button's disabled condition), then the allowance check
`totalBreakUsed >= totalAllowedBreak`; on success starts a break. -/
def handleBreakIn (r : DayRecord) (now : Int) : DayRecord × Option OpError :=
  if r.punchIn.isNone then (r, some .invalidTransition)
  else if r.punchOut.isSome then (r, some .invalidTransition)
  else if r.onBreak then (r, some .invalidTransition)
  else if totalAllowedBreak r.punchIn ≤ getTotalBreakUsed r now then
    (r, some .breakExhausted)
  else ({ r with onBreak := true, breakStart := some now }, none)

/-- Result of `handleBreakOut`: the new record, the rejection if any, and
whether `window.confirm` was shown (the overrun warning). -/
structure BreakOutResult where
  record : DayRecord
  error : Option OpError
  askedConfirm : Bool
deriving Repr, DecidableEq

/-- `handleBreakOut`: guard `!onBreak || !breakStart`; compute the finished
session; if it pushes the total over `totalAllowedBreak`, show the confirm
dialog and cancel (staying on break) unless the user confirms; otherwise, or
on confirmation, append the session and close the break. -/
def handleBreakOut (r : DayRecord) (now : Int) (confirm : Bool) : BreakOutResult :=
  match r.onBreak, r.breakStart with
  | true, some bs =>
      let minutes := minutesBetween bs now
      let currentUsed := sumBreakMinutes r.breaks
      let totalAfterBreak := currentUsed + minutes
      let committed : DayRecord :=
        { r with breaks := r.breaks ++ [⟨some bs, some now, minutes⟩]
                 onBreak := false
                 breakStart := none }
      if totalAllowedBreak r.punchIn < totalAfterBreak then
        if confirm then ⟨committed, none, true⟩
        else ⟨r, none, true⟩
      else ⟨committed, none, false⟩
  | _, _ => ⟨r, some .invalidTransition, false⟩

/-- Which field an edit targets (`editMode.type`, with `editMode.index` and
`editMode.field === 'start'` for break edits). -/
inductive EditTarget
  | editPunchIn
  | editPunchOut
  | editBreak (index : Nat) (isStart : Bool)
deriving Repr, DecidableEq

/-- `parseInputToDate(timeString, baseDate)` after the two `parseInt` calls:
`hh`/`mm` are their results (`none` models `NaN`). `null` when either is
`NaN`, else `baseDate` with hours/minutes set and seconds/ms zeroed. -/
def parseInputToDate (hh mm : Option Int) (base : Int) : Option Int :=
  match hh, mm with
  | some h, some m => some (setHoursMinutes base h m)
  | _, _ => none

/-- The break-list updater inside `saveEdit`: out-of-range index returns the
list unchanged; otherwise write the edited endpoint and recompute `minutes`
(0 when an endpoint is missing). -/
def updateBreakAt (brks : List BreakSession) (idx : Nat) (isStart : Bool)
    (newDate : Option Int) : List BreakSession :=
  match brks.get? idx with
  | none => brks
  | some b =>
      let b1 := if isStart then { b with start := newDate } else { b with stop := newDate }
      let b2 :=
        match b1.start, b1.stop with
        | some s, some e => { b1 with minutes := minutesBetween s e }
        | _, _ => { b1 with minutes := 0 }
      brks.set idx b2

/-- `saveEdit` for an open editor: `nonEmpty` is `!!editValue`; `hh`/`mm` are
the parse results of the entered value; `now` is `new Date()`. An empty value
cancels. Punch edits parse against the field's current value (or now);
break edits parse against `new Date()`. Summary recomputation follows the
source, including its use of the pre-update `breaks` list in the break
branch. -/
def saveEdit (r : DayRecord) (target : EditTarget) (nonEmpty : Bool)
    (hh mm : Option Int) (now : Int) : DayRecord :=
  if !nonEmpty then r
  else
    match target with
    | .editPunchIn =>
        let newDate := parseInputToDate hh mm (r.punchIn.getD now)
        let r1 := { r with punchIn := newDate }
        if r.punchOut.isSome then
          { r1 with summary := computeSummaryObject newDate r.punchOut r.breaks }
        else r1
    | .editPunchOut =>
        let newDate := parseInputToDate hh mm (r.punchOut.getD now)
        let r1 := { r with punchOut := newDate }
        if r.punchIn.isSome then
          { r1 with summary := computeSummaryObject r.punchIn newDate r.breaks }
        else r1
    | .editBreak idx isStart =>
        let newDate := parseInputToDate hh mm now
        let r1 := { r with breaks := updateBreakAt r.breaks idx isStart newDate }
        if r.punchIn.isSome && r.punchOut.isSome then
          { r1 with summary := computeSummaryObject r.punchIn r.punchOut r.breaks }
        else r1

/-- The serialized `STORAGE_KEY` payload: the five persisted day fields. -/
structure StoredDay where
  punchIn : Option Int
  punchOut : Option Int
  breaks : List BreakSession
  onBreak : Bool
  breakStart : Option Int
deriving Repr, DecidableEq

/-- A `HISTORY_KEY` entry created by `archiveAndResetIfNeeded`. -/
structure HistoryEntry where
  date : Int
  punchIn : Option Int
  punchOut : Option Int
  breaks : List BreakSession
  summary : Option Summary
deriving Repr, DecidableEq

/-- Component state plus the three localStorage slots. -/
structure SysState where
  record : DayRecord
  history : List HistoryEntry
  storageDay : Option StoredDay
  storageHistory : List HistoryEntry
  storageDate : Option Int
deriving Repr, DecidableEq

/-- The five persisted fields of a record, as `saveState` serializes them. -/
def storedOf (r : DayRecord) : StoredDay :=
  ⟨r.punchIn, r.punchOut, r.breaks, r.onBreak, r.breakStart⟩

/-- `saveState()`: writes the day record under `STORAGE_KEY` and overwrites
`DATE_KEY` with today's date string. -/
def saveState (s : SysState) (now : Int) : SysState :=
  { s with storageDay := some (storedOf s.record)
           storageDate := some (dayOf now) }

/-- The empty day the component resets to. -/
def emptyRecord : DayRecord :=
  { punchIn := none, punchOut := none, breaks := [], onBreak := false,
    breakStart := none, summary := none }

/-- `archiveAndResetIfNeeded(savedDate)`: if the live record has any punch or
break, append a history entry tagged with the stored (old) date to both the
state and `HISTORY_KEY`; then reset the live record, advance `DATE_KEY` to
today and remove `STORAGE_KEY`. -/
def archiveAndResetIfNeeded (s : SysState) (savedDate : Int) (now : Int) : SysState :=
  let s1 :=
    if s.record.punchIn.isSome ∨ s.record.punchOut.isSome ∨ s.record.breaks ≠ [] then
      let entry : HistoryEntry :=
        ⟨savedDate, s.record.punchIn, s.record.punchOut, s.record.breaks,
         computeSummaryObject s.record.punchIn s.record.punchOut s.record.breaks⟩
      let newHist := s.history ++ [entry]
      { s with history := newHist, storageHistory := newHist }
    else s
  { s1 with record := emptyRecord
            storageDate := some (dayOf now)
            storageDay := none }

/-- The periodic midnight check: read `DATE_KEY`; if present and different
from today, run `archiveAndResetIfNeeded` with the stored date. -/
def rolloverCheck (s : SysState) (now : Int) : SysState :=
  match s.storageDate with
  | some d => if d ≠ dayOf now then archiveAndResetIfNeeded s d now else s
  | none => s

/-- `getHours()` of an instant. -/
def hourOf (t : Int) : Int := (t - startOfDay t).fdiv 3600000

/-- `getMinutes()` of an instant. -/
def minuteOf (t : Int) : Int := ((t - startOfDay t).fdiv 60000) % 60

/-- Millisecond offset inside the current minute
(`1000 * getSeconds() + getMilliseconds()`). -/
def msOfMinute (t : Int) : Int := (t - startOfDay t) % 60000

theorem minutesBetween_eq (a b : Int) :
    minutesBetween a b = max 0 ((b - a) / 60000) := by
  unfold minutesBetween msPerMinute
  rw [Int.fdiv_eq_ediv _ (by norm_num)]

theorem dayOf_eq (t : Int) : dayOf t = t / 86400000 := by
  unfold dayOf msPerDay
  rw [Int.fdiv_eq_ediv _ (by norm_num)]

theorem startOfDay_eq (t : Int) : startOfDay t = 86400000 * (t / 86400000) := by
  unfold startOfDay msPerDay
  rw [Int.fdiv_eq_ediv _ (by norm_num)]

theorem setHoursMinutes_eq (t h m : Int) :
    setHoursMinutes t h m = 86400000 * (t / 86400000) + (h * 60 + m) * 60000 := by
  unfold setHoursMinutes msPerMinute
  rw [startOfDay_eq]

theorem hourOf_eq (t : Int) : hourOf t = (t - 86400000 * (t / 86400000)) / 3600000 := by
  unfold hourOf
  rw [startOfDay_eq, Int.fdiv_eq_ediv]
  omega

theorem minuteOf_eq (t : Int) :
    minuteOf t = ((t - 86400000 * (t / 86400000)) / 60000) % 60 := by
  unfold minuteOf
  rw [startOfDay_eq, Int.fdiv_eq_ediv]
  norm_num

theorem msOfMinute_eq (t : Int) :
    msOfMinute t = (t - 86400000 * (t / 86400000)) % 60000 := by
  unfold msOfMinute
  rw [startOfDay_eq]

theorem sumBreakMinutes_eq (brks : List BreakSession) :
    sumBreakMinutes brks = (brks.map BreakSession.minutes).sum := by
  unfold sumBreakMinutes
  rw [List.sum_eq_foldl, ← List.foldl_map]

/-- C1: `computeSummary` returns `null` exactly when an endpoint is missing;
otherwise it returns office minutes `minutesBetween punchIn punchOut`, break
minutes equal to the sum of the sessions' minutes, work minutes
`max 0 (office - breaks)` with the full break total subtracted, and a required
quota of 420 minutes. -/
theorem computeSummary_spec (pIn pOut : Option Int) (brks : List BreakSession) :
    (computeSummaryObject pIn pOut brks = none ↔ pIn = none ∨ pOut = none) ∧
    (∀ a b, pIn = some a → pOut = some b →
      computeSummaryObject pIn pOut brks =
        some { totalOfficeMinutes := minutesBetween a b
               breakMinutes := (brks.map BreakSession.minutes).sum
               totalWork := max 0 (minutesBetween a b - (brks.map BreakSession.minutes).sum)
               requiredMinutes := 420 }) := by
  constructor
  · cases pIn <;> cases pOut <;> simp [computeSummaryObject]
  · rintro a b rfl rfl
    simp [computeSummaryObject, sumBreakMinutes_eq, REQUIRED_WORK_HOURS]

/-- Witness for C1 at the spec's own scenario: punch in 09:30, punch out
17:30, breaks of 40 and 30 minutes — 480 office minutes, 70 break minutes,
410 work minutes against a 420 quota, the 10-minute overrun fully
subtracted. -/
theorem computeSummary_spec_witness :
    computeSummaryObject (some 34200000) (some 63000000)
      [⟨some 36000000, some 38400000, 40⟩, ⟨some 50400000, some 52200000, 30⟩] =
      some ⟨480, 70, 410, 420⟩ := by
  have h := (computeSummary_spec (some 34200000) (some 63000000)
      [⟨some 36000000, some 38400000, 40⟩, ⟨some 50400000, some 52200000, 30⟩]).2
      34200000 63000000 rfl rfl
  rw [h]
  decide

/-- C6: for every punch-in instant, the allowance is 60 plus the early-arrival
minutes, which are `minutesBetween punchIn officeStart` when the punch-in
precedes 09:30 of its own calendar day and 0 otherwise; the 09:30 reference
lies on punchIn's own day, and a 09:15 punch-in yields 15 early minutes and a
75-minute allowance. -/
theorem totalAllowedBreak_spec (t : Int) :
    earlyArrivalMinutes (some t) =
      (if t < setHoursMinutes t 9 30
        then minutesBetween t (setHoursMinutes t 9 30) else 0) ∧
    totalAllowedBreak (some t) = 60 + earlyArrivalMinutes (some t) ∧
    dayOf (setHoursMinutes t 9 30) = dayOf t ∧
    earlyArrivalMinutes (some 33300000) = 15 ∧
    totalAllowedBreak (some 33300000) = 75 := by
  refine ⟨?_, rfl, ?_, by decide, by decide⟩
  · simp only [earlyArrivalMinutes]
    generalize setHoursMinutes t 9 30 = os
    rw [minutesBetween_eq]
    rcases lt_or_ge t os with h | h
    · rw [if_pos h]
      omega
    · rw [if_neg (not_lt.mpr h)]
      omega
  · rw [dayOf_eq, dayOf_eq, setHoursMinutes_eq]
    omega

/-- C3: PunchIn invoked while WORKING or ON_BREAK is rejected as
InvalidTransition with the record untouched; from NOT_STARTED or COMPLETED it
takes effect, setting `punchIn = now` and clearing `punchOut`, `breaks`,
`onBreak`, `breakStart` and the summary. (The hypothesis is the state
invariant that an open break implies a punch-in.) -/
theorem punchIn_transition_spec (r : DayRecord) (now : Int)
    (hinv : r.onBreak = true → r.punchIn.isSome) :
    ((stateOf r = .workingP ∨ stateOf r = .onBreakP) →
      punchInOp r now = (r, some .invalidTransition)) ∧
    ((stateOf r = .notStartedP ∨ stateOf r = .completedP) →
      punchInOp r now =
        ({ punchIn := some now, punchOut := none, breaks := [], onBreak := false,
           breakStart := none, summary := none }, none)) := by
  obtain ⟨pi, po, brks, ob, bst, sm⟩ := r
  cases pi <;> cases po <;> cases ob <;>
    simp_all [stateOf, punchInOp, punchInDisabled, handlePunchIn]

/-- Witness for C3: punching in again from a completed day restarts it with a
cleared record. -/
theorem punchIn_transition_witness :
    punchInOp ⟨some 100, some 200, [⟨some 1, some 2, 3⟩], false, none, none⟩ 300 =
      ({ punchIn := some 300, punchOut := none, breaks := [], onBreak := false,
         breakStart := none, summary := none }, none) :=
  (punchIn_transition_spec ⟨some 100, some 200, [⟨some 1, some 2, 3⟩], false, none, none⟩
    300 (by decide)).2 (Or.inr (by decide))

/-- C4: PunchOut succeeds only from WORKING — it sets `punchOut = now`,
recomputes the summary and lands in COMPLETED; from every other state it is
rejected as InvalidTransition with the record unchanged. -/
theorem punchOut_transition_spec (r : DayRecord) (now : Int) :
    (stateOf r = .workingP →
      punchOutOp r now =
        ({ r with punchOut := some now
                  summary := computeSummaryObject r.punchIn (some now) r.breaks },
         none) ∧
      stateOf (punchOutOp r now).1 = .completedP) ∧
    (stateOf r ≠ .workingP → punchOutOp r now = (r, some .invalidTransition)) := by
  obtain ⟨pi, po, brks, ob, bst, sm⟩ := r
  cases pi <;> cases po <;> cases ob <;>
    simp_all [stateOf, punchOutOp, handlePunchOut]

/-- Witness for C4: punching out of a working day completes it and stores the
recomputed summary. -/
theorem punchOut_transition_witness :
    punchOutOp ⟨some 34200000, none, [⟨some 36000000, some 38400000, 40⟩], false,
        none, none⟩ 63000000 =
      ({ punchIn := some 34200000, punchOut := some 63000000,
         breaks := [⟨some 36000000, some 38400000, 40⟩], onBreak := false,
         breakStart := none, summary := some ⟨480, 40, 440, 420⟩ }, none) :=
  ((punchOut_transition_spec ⟨some 34200000, none, [⟨some 36000000, some 38400000, 40⟩],
      false, none, none⟩ 63000000).1 (by decide)).1.trans (by decide)

/-- C5: BreakIn succeeds exactly from WORKING with used break minutes strictly
below the allowance, setting `onBreak` and `breakStart = now`; with the
allowance consumed it is rejected as BreakExhausted, from any non-WORKING
state as InvalidTransition, the record unchanged in both cases. -/
theorem breakIn_transition_spec (r : DayRecord) (now : Int) :
    (stateOf r = .workingP → getTotalBreakUsed r now < totalAllowedBreak r.punchIn →
      handleBreakIn r now = ({ r with onBreak := true, breakStart := some now }, none)) ∧
    (stateOf r = .workingP → totalAllowedBreak r.punchIn ≤ getTotalBreakUsed r now →
      handleBreakIn r now = (r, some .breakExhausted)) ∧
    (stateOf r ≠ .workingP → handleBreakIn r now = (r, some .invalidTransition)) := by
  obtain ⟨pi, po, brks, ob, bst, sm⟩ := r
  cases pi <;> cases po <;> cases ob <;>
    simp_all [stateOf, handleBreakIn]

/-- Witness for C5: a first break within a fresh 60-minute allowance starts
immediately. -/
theorem breakIn_transition_witness :
    handleBreakIn ⟨some 34200000, none, [], false, none, none⟩ 36000000 =
      ({ punchIn := some 34200000, punchOut := none, breaks := [], onBreak := true,
         breakStart := some 36000000, summary := none }, none) :=
  (breakIn_transition_spec ⟨some 34200000, none, [], false, none, none⟩ 36000000).1
    (by decide) (by decide)

/-- C2: BreakOut on an open break is never blocked by the allowance: an
over-limit session first asks for confirmation, and on confirmation (or
directly, when within the allowance, for either confirm answer) appends
`{start := breakStart, end := now, minutes := minutesBetween breakStart now}`,
clears `onBreak` and `breakStart`; declining the confirmation leaves the
record unchanged with no error. -/
theorem breakOut_overrun_spec (r : DayRecord) (now bs : Int)
    (hst : stateOf r = .onBreakP) (hbs : r.breakStart = some bs) :
    (totalAllowedBreak r.punchIn < sumBreakMinutes r.breaks + minutesBetween bs now →
      handleBreakOut r now true =
        ⟨{ r with breaks := r.breaks ++ [⟨some bs, some now, minutesBetween bs now⟩]
                  onBreak := false
                  breakStart := none }, none, true⟩ ∧
      handleBreakOut r now false = ⟨r, none, true⟩) ∧
    (sumBreakMinutes r.breaks + minutesBetween bs now ≤ totalAllowedBreak r.punchIn →
      ∀ c, handleBreakOut r now c =
        ⟨{ r with breaks := r.breaks ++ [⟨some bs, some now, minutesBetween bs now⟩]
                  onBreak := false
                  breakStart := none }, none, false⟩) := by
  have hob : r.onBreak = true := by
    unfold stateOf at hst
    split_ifs at hst
    all_goals simp_all
  refine ⟨fun hx => ⟨?_, ?_⟩, fun hx c => ?_⟩
  · simp only [handleBreakOut, hob, hbs, if_pos hx, if_true]
  · simp only [handleBreakOut, hob, hbs, if_pos hx, Bool.false_eq_true, if_false]
  · simp only [handleBreakOut, hob, hbs, if_neg (not_lt.mpr hx)]

/-- Witness for C2: with a 60-minute allowance already holding 50 committed
minutes, a 20-minute break ends over the limit — the confirm dialog is shown
and, once confirmed, the session is still recorded. -/
theorem breakOut_overrun_witness :
    handleBreakOut ⟨some 34200000, none, [⟨some 36000000, some 39000000, 50⟩], true,
        some 45000000, none⟩ 46200000 true =
      ⟨{ punchIn := some 34200000, punchOut := none,
         breaks := [⟨some 36000000, some 39000000, 50⟩, ⟨some 45000000, some 46200000, 20⟩],
         onBreak := false, breakStart := none, summary := none }, none, true⟩ := by
  have h := ((breakOut_overrun_spec
      ⟨some 34200000, none, [⟨some 36000000, some 39000000, 50⟩], true,
        some 45000000, none⟩ 46200000 45000000 (by decide) rfl).1 (by decide)).1
  exact h.trans (by decide)

theorem archive_storageDate (s : SysState) (d now : Int) :
    (archiveAndResetIfNeeded s d now).storageDate = some (dayOf now) := by
  unfold archiveAndResetIfNeeded
  split_ifs <;> rfl

theorem archive_history_len (s : SysState) (d now : Int) :
    (archiveAndResetIfNeeded s d now).history.length ≤ s.history.length + 1 := by
  unfold archiveAndResetIfNeeded
  split_ifs <;> simp

theorem rolloverCheck_fixed (s : SysState) (now : Int)
    (h : s.storageDate = some (dayOf now)) : rolloverCheck s now = s := by
  unfold rolloverCheck
  rw [h]
  simp

theorem rolloverCheck_none (s : SysState) (now : Int)
    (h : s.storageDate = none) : rolloverCheck s now = s := by
  unfold rolloverCheck
  rw [h]

/-- C7: running the rollover check twice in a row with no intervening activity
appends at most one history entry — the second run changes nothing at all
(after an archiving first run the marker equals today and the record is
empty, so nothing further is archived). -/
theorem rollover_idempotent_spec (s : SysState) (now : Int) :
    rolloverCheck (rolloverCheck s now) now = rolloverCheck s now ∧
    (rolloverCheck s now).history.length ≤ s.history.length + 1 := by
  rcases hd : s.storageDate with _ | d
  · rw [rolloverCheck_none s now hd]
    exact ⟨rolloverCheck_none s now hd, Nat.le_succ _⟩
  · by_cases h : d = dayOf now
    · have hfix : rolloverCheck s now = s :=
        rolloverCheck_fixed s now (by rw [hd, h])
      rw [hfix]
      exact ⟨hfix, Nat.le_succ _⟩
    · have harch : rolloverCheck s now = archiveAndResetIfNeeded s d now := by
        unfold rolloverCheck
        rw [hd]
        exact if_pos h
      rw [harch]
      exact ⟨rolloverCheck_fixed _ now (archive_storageDate s d now),
             archive_history_len s d now⟩

/-- C10: every write-through save overwrites the persisted day marker with the
current calendar day (not only the day-record slot), the history is untouched,
and a rollover check right after such a save archives nothing — the prior
day's marker is gone without its record ever entering history. -/
theorem saveState_marker_spec (s : SysState) (now : Int) :
    (saveState s now).storageDay = some (storedOf s.record) ∧
    (saveState s now).storageDate = some (dayOf now) ∧
    (saveState s now).history = s.history ∧
    (saveState s now).storageHistory = s.storageHistory ∧
    rolloverCheck (saveState s now) now = saveState s now :=
  ⟨rfl, rfl, rfl, rfl, rolloverCheck_fixed _ now rfl⟩

/-- C8 counterexample: a break recorded on day 0 (start 10:00, end 10:40),
edited the next day (now = day 1, 10:00) to "10:00", lands on day 1 — the
edited endpoint does not stay on its original calendar day, because the break
branch of `saveEdit` parses against `new Date()` rather than the field's
current value. -/
theorem saveEdit_break_day_cex :
    (saveEdit ⟨none, none, [⟨some 36000000, some 38400000, 40⟩], false, none, none⟩
       (EditTarget.editBreak 0 true) true (some 10) (some 0) 122400000).breaks =
      [⟨some 122400000, some 38400000, 0⟩] ∧
    dayOf 122400000 ≠ dayOf 36000000 := by
  decide

theorem updateBreakAt_some (brks : List BreakSession) (idx : Nat) (x : Int)
    (b : BreakSession) (hb : brks.get? idx = some b) :
    updateBreakAt brks idx true (some x) =
      brks.set idx { b with start := some x
                            minutes := match b.stop with
                              | some e => minutesBetween x e
                              | none => 0 } := by
  unfold updateBreakAt
  rw [hb]
  cases hstop : b.stop <;> simp [hstop]

theorem updateBreakAt_none (brks : List BreakSession) (idx : Nat) (isStart : Bool)
    (b : BreakSession) (hb : brks.get? idx = some b) :
    updateBreakAt brks idx isStart none =
      brks.set idx (if isStart then { b with start := none, minutes := 0 }
                    else { b with stop := none, minutes := 0 }) := by
  unfold updateBreakAt
  rw [hb]
  cases isStart <;> cases hstart : b.start <;> cases hstop : b.stop <;>
    simp [hstart, hstop]

/-- C8 amended: a saved edit stores the entered hour and minute with seconds
and milliseconds zero; punch-in and punch-out edits land on the calendar day
of the field's current value (or today when the field is unset), but a
break-endpoint edit lands on today's calendar day regardless of the
endpoint's original day. -/
theorem saveEdit_calendar_spec (r : DayRecord) (now h m t : Int) (idx : Nat)
    (hh0 : 0 ≤ h) (hh : h < 24) (hm0 : 0 ≤ m) (hm : m < 60) :
    dayOf (setHoursMinutes t h m) = dayOf t ∧
    hourOf (setHoursMinutes t h m) = h ∧
    minuteOf (setHoursMinutes t h m) = m ∧
    msOfMinute (setHoursMinutes t h m) = 0 ∧
    (saveEdit r .editPunchIn true (some h) (some m) now).punchIn =
      some (setHoursMinutes (r.punchIn.getD now) h m) ∧
    (saveEdit r .editPunchOut true (some h) (some m) now).punchOut =
      some (setHoursMinutes (r.punchOut.getD now) h m) ∧
    (∀ b, r.breaks.get? idx = some b →
      (saveEdit r (.editBreak idx true) true (some h) (some m) now).breaks =
        r.breaks.set idx
          { b with start := some (setHoursMinutes now h m)
                   minutes := match b.stop with
                     | some e => minutesBetween (setHoursMinutes now h m) e
                     | none => 0 }) := by
  refine ⟨?_, ?_, ?_, ?_, ?_, ?_, ?_⟩
  · rw [dayOf_eq, dayOf_eq, setHoursMinutes_eq]
    omega
  · rw [hourOf_eq, setHoursMinutes_eq]
    omega
  · rw [minuteOf_eq, setHoursMinutes_eq]
    omega
  · rw [msOfMinute_eq, setHoursMinutes_eq]
    omega
  · simp only [saveEdit, parseInputToDate, Bool.not_true, Bool.false_eq_true, if_false]
    split_ifs <;> rfl
  · simp only [saveEdit, parseInputToDate, Bool.not_true, Bool.false_eq_true, if_false]
    split_ifs <;> rfl
  · intro b hb
    have hub := updateBreakAt_some r.breaks idx (setHoursMinutes now h m) b hb
    simp only [saveEdit, parseInputToDate, Bool.not_true, Bool.false_eq_true, if_false]
    split_ifs <;> exact hub

/-- Witness for C8 amended: editing the punch-in (recorded 09:30 on day 0) to
10:00 the next day keeps it on day 0 at 10:00. -/
theorem saveEdit_calendar_witness :
    dayOf (setHoursMinutes 34200000 10 0) = dayOf 34200000 ∧
    (saveEdit ⟨some 34200000, none, [], false, none, none⟩ EditTarget.editPunchIn true
       (some 10) (some 0) 122400000).punchIn = some 36000000 := by
  have h := saveEdit_calendar_spec ⟨some 34200000, none, [], false, none, none⟩
      122400000 10 0 34200000 0 (by decide) (by decide) (by decide) (by decide)
  exact ⟨h.1, h.2.2.2.2.1.trans (by decide)⟩

/-- C9 counterexample: a non-empty unparsable edit value does not silently
cancel — the prior punch-in (09:30) is overwritten with null. -/
theorem saveEdit_unparsable_cex :
    (saveEdit ⟨some 34200000, none, [], false, none, none⟩
       EditTarget.editPunchIn true none (some 30) 40000000).punchIn = none ∧
    (⟨some 34200000, none, [], false, none, none⟩ : DayRecord).punchIn ≠ none := by
  decide

/-- C9 amended: an unparsable non-empty edit value is committed as null — the
edited field is cleared (for a break endpoint the session's minutes are also
zeroed) instead of retaining its prior value; only an empty edit value cancels
the edit and leaves the record unchanged. -/
theorem saveEdit_unparsable_spec (r : DayRecord) (hh mm : Option Int) (now : Int)
    (idx : Nat) (isStart : Bool) (target : EditTarget)
    (hbad : hh = none ∨ mm = none) :
    (saveEdit r .editPunchIn true hh mm now).punchIn = none ∧
    (saveEdit r .editPunchOut true hh mm now).punchOut = none ∧
    (∀ b, r.breaks.get? idx = some b →
      (saveEdit r (.editBreak idx isStart) true hh mm now).breaks =
        r.breaks.set idx (if isStart then { b with start := none, minutes := 0 }
                          else { b with stop := none, minutes := 0 })) ∧
    saveEdit r target false hh mm now = r := by
  have hparse : ∀ base, parseInputToDate hh mm base = none := by
    intro base
    rcases hbad with hcase | hcase
    · subst hcase
      rfl
    · subst hcase
      cases hh <;> rfl
  refine ⟨?_, ?_, ?_, rfl⟩
  · simp only [saveEdit, hparse, Bool.not_true, Bool.false_eq_true, if_false]
    split_ifs <;> rfl
  · simp only [saveEdit, hparse, Bool.not_true, Bool.false_eq_true, if_false]
    split_ifs <;> rfl
  · intro b hb
    have hub := updateBreakAt_none r.breaks idx isStart b hb
    simp only [saveEdit, hparse, Bool.not_true, Bool.false_eq_true, if_false]
    split_ifs <;> simp_all [hub]

/-- Witness for C9 amended: an unparsable hour nulls the punch-in, and an
empty edit value leaves the record untouched. -/
theorem saveEdit_unparsable_witness :
    (saveEdit ⟨some 34200000, some 63000000, [], false, none, none⟩
       EditTarget.editPunchIn true none (some 30) 70000000).punchIn = none ∧
    saveEdit ⟨some 34200000, some 63000000, [], false, none, none⟩
       EditTarget.editPunchOut false none (some 30) 70000000 =
      ⟨some 34200000, some 63000000, [], false, none, none⟩ := by
  have h := saveEdit_unparsable_spec ⟨some 34200000, some 63000000, [], false, none, none⟩
      none (some 30) 70000000 0 true EditTarget.editPunchOut (Or.inl rfl)
  exact ⟨h.1, h.2.2.2⟩
